import Mathlib

/-!
Verification of the power-management core of the `amt` package
(`power.go`): the power-state enumeration, the status snapshot, the
preferred-state selection algorithm, and the high-level power
operations (on / off / cycle) built on the transition primitive.

Remote I/O is modelled by a `Device` oracle giving the status returned
by each successive status read, together with an explicit `Trace`
recording how many reads happened and which wire invocations
(RequestPowerStateChange) were sent, in order.
-/

namespace Amt

/-- Go: `type powerState int`. Go `int` is a signed machine integer; the
codes used here are tiny, so we embed it as `Int` (overflow never
arises for the constants and parsed values considered). -/
abbrev powerState := Int

def powerStateUnknown : powerState := 0

def powerStateOther : powerState := 1

def powerStateOn : powerState := 2

def powerStateSleepLight : powerState := 3

def powerStateSleepDeep : powerState := 4

def powerStatePowerCycleOffSoft : powerState := 5

def powerStateOffHard : powerState := 6

def powerStateHibernateOffSoft : powerState := 7

def powerStateOffSoft : powerState := 8

def powerStatePowerCycleOffHard : powerState := 9

def powerStateMasterBusReset : powerState := 10

def powerStateDiagnosticInterruptNMI : powerState := 11

def powerStateOffSoftGraceful : powerState := 12

def powerStateOffHardGraceful : powerState := 13

def powerStateMasterBusResetGraceful : powerState := 14

def powerStatePowerCycleOffSoftGraceful : powerState := 15

def powerStatePowerCycleOffHardGraceful : powerState := 16

def powerStateDiagnosticInterruptInit : powerState := 17

/-- Go: `type powerStatus struct`. Field order differs from the Go
struct only so that the `powerState` field (whose name shadows the type
alias) comes last. -/
structure powerStatus where
  AvailableRequestedpowerStates : List powerState
  RequestedpowerState : powerState
  powerState : powerState
  deriving DecidableEq

/-- Go: `containspowerState(s []powerState, e powerState) bool` —
linear scan for equality. -/
def containspowerState : List powerState → powerState → Bool
  | [], _ => false
  | a :: rest, e => if a == e then true else containspowerState rest e

/-- Go: `selectNextState(requestedStates, availableStates []powerState)
powerState` — first element of `requestedStates` contained in
`availableStates`, else `powerStateUnknown`. -/
def selectNextState : List powerState → List powerState → powerState
  | [], _ => powerStateUnknown
  | a :: rest, availableStates =>
    if containspowerState availableStates a then a
    else selectNextState rest availableStates

/-- Go: `getPowerOffStates() []powerState`. -/
def getPowerOffStates : List powerState :=
  [powerStateOffSoftGraceful,
   powerStateOffSoft,
   powerStateOffHardGraceful,
   powerStateOffHard]

/-- Go: `getPowerCycleStates() []powerState`. -/
def getPowerCycleStates : List powerState :=
  [powerStatePowerCycleOffSoftGraceful,
   powerStatePowerCycleOffSoft,
   powerStateMasterBusResetGraceful,
   powerStatePowerCycleOffHardGraceful,
   powerStatePowerCycleOffHard,
   powerStateMasterBusReset]

/-- Go: `isPoweredOnGivenStatus(log logr.Logger, status *powerStatus)
bool`. The logger argument only emits a diagnostic line and is dropped
from the embedding. The switch returns true exactly on
`powerStateOn` (code 2). -/
def isPoweredOnGivenStatus (status : powerStatus) : Bool :=
  match status.powerState with
  | 2 => true
  | _ => false

/-- Error taxonomy of the power core, capturing the data carried by
each `fmt.Errorf` message (or the class of a propagated failure)
instead of the message string itself. -/
inductive PowerError where
  /-- a transport failure, or a malformed/missing enumeration response,
  propagated unchanged from a status read -/
  | transport
  /-- `strconv.Atoi` failure on an expected numeric field -/
  | decodeError
  /-- power.go line 114: no implemented off transition; carries the
  current state and the available-states list named in the message -/
  | noOffTransition (current : powerState) (available : List powerState)
  /-- power.go line 136: no implemented cycle transition; carries the
  current state and the available-states list named in the message -/
  | noCycleTransition (current : powerState) (available : List powerState)
  /-- power.go line 164: target not in the freshly read available
  states; carries target, current state, and the available list -/
  | noRequestTransition (target : powerState) (current : powerState)
      (available : List powerState)
  deriving DecidableEq

/-- Oracle for the remote device: `statusAt n` is the status snapshot
returned by the (n+1)-th status read (`none` models a transport or
protocol failure of that read). `ack` is the integer acknowledgment
code returned by a RequestPowerStateChange invocation; the invocation
send, managed-element lookup and acknowledgment parse are modelled as
succeeding, since the claims under study concern the logic before the
wire invocation. -/
structure Device where
  statusAt : Nat → Option powerStatus
  ack : Int

/-- Observable effects of an operation: number of status reads
performed so far and the wire invocations (RequestPowerStateChange
target states) sent, in order. -/
structure Trace where
  reads : Nat
  invocations : List powerState
  deriving DecidableEq

def Trace.init : Trace := { reads := 0, invocations := [] }

def stepRead (t : Trace) : Trace := { t with reads := t.reads + 1 }

/-- Go: `getPowerStatus(ctx, client)` — one remote enumeration plus
parse, consuming one read from the device oracle. The element-level
parsing of the enumeration response is embedded separately below
(`getPowerStatusFromElements`); here a read either yields a parsed
snapshot or fails. -/
def getPowerStatus (d : Device) (t : Trace) :
    Except PowerError powerStatus × Trace :=
  match d.statusAt t.reads with
  | none => (.error .transport, stepRead t)
  | some status => (.ok status, stepRead t)

/-- Go: `_, err := requestpowerState(...); return err` — the callers
discard the acknowledgment code and keep only the error. -/
def dropAck (r : Except PowerError Int × Trace) :
    Except PowerError Unit × Trace :=
  (r.1.map fun _ => (), r.2)

/-- Go: `requestpowerState(ctx, client, requestedpowerState)` — re-reads
status, validates membership of the target in the just-read available
states, then sends the RequestPowerStateChange invocation and returns
the acknowledgment code. -/
def requestpowerState (d : Device) (t : Trace)
    (requestedpowerState : powerState) : Except PowerError Int × Trace :=
  match getPowerStatus d t with
  | (.error e, t1) => (.error e, t1)
  | (.ok status, t1) =>
    if !containspowerState status.AvailableRequestedpowerStates
        requestedpowerState then
      (.error (.noRequestTransition requestedpowerState status.powerState
        status.AvailableRequestedpowerStates), t1)
    else
      (.ok d.ack, { t1 with
        invocations := t1.invocations ++ [requestedpowerState] })

/-- Go: `isPoweredOn(ctx, client)` — one status read classified by
`isPoweredOnGivenStatus`. -/
def isPoweredOn (d : Device) (t : Trace) :
    Except PowerError Bool × Trace :=
  match getPowerStatus d t with
  | (.error e, t1) => (.error e, t1)
  | (.ok status, t1) => (.ok (isPoweredOnGivenStatus status), t1)

/-- Go: `powerOn(ctx, client)`. -/
def powerOn (d : Device) (t : Trace) : Except PowerError Unit × Trace :=
  match isPoweredOn d t with
  | (.error e, t1) => (.error e, t1)
  | (.ok true, t1) => (.ok (), t1)
  | (.ok false, t1) => dropAck (requestpowerState d t1 powerStateOn)

/-- Go: `powerOff(ctx, client)`. -/
def powerOff (d : Device) (t : Trace) : Except PowerError Unit × Trace :=
  match getPowerStatus d t with
  | (.error e, t1) => (.error e, t1)
  | (.ok status, t1) =>
    if isPoweredOnGivenStatus status then
      let request := selectNextState getPowerOffStates
        status.AvailableRequestedpowerStates
      if request ≠ powerStateUnknown then
        dropAck (requestpowerState d t1 request)
      else
        (.error (.noOffTransition status.powerState
          status.AvailableRequestedpowerStates), t1)
    else
      (.ok (), t1)

/-- Go: `powerCycle(ctx, client)`. Note the guard on the selected
request is `request >= 0` in the source, not a comparison with the
sentinel `powerStateUnknown`. -/
def powerCycle (d : Device) (t : Trace) : Except PowerError Unit × Trace :=
  match getPowerStatus d t with
  | (.error e, t1) => (.error e, t1)
  | (.ok status, t1) =>
    if !isPoweredOnGivenStatus status then
      powerOn d t1
    else
      let request := selectNextState getPowerCycleStates
        status.AvailableRequestedpowerStates
      if request ≥ 0 then
        dropAck (requestpowerState d t1 request)
      else
        (.error (.noCycleTransition status.powerState
          status.AvailableRequestedpowerStates), t1)

/-- Qualified XML name of a DOM element; only the local part is
inspected by the power-status parser. -/
structure ElemName where
  Local : String
  deriving DecidableEq

/-- A DOM child element of the power-management association item: a
tag name and its text content. -/
structure Element where
  Name : ElemName
  Content : String
  deriving DecidableEq

/-- Accumulate decimal digits; fails on any non-digit character. -/
def decDigitsAux : List Char → Nat → Option Nat
  | [], acc => some acc
  | c :: rest, acc =>
    if c.isDigit then decDigitsAux rest (acc * 10 + (c.toNat - 48))
    else none

/-- Go: `strconv.Atoi` — an optional sign followed by at least one
decimal digit; anything else fails. (Go additionally fails on 64-bit
overflow, which cannot occur for realistic power-state codes and is
not modelled.) -/
def Atoi (s : String) : Option Int :=
  match s.data with
  | [] => none
  | ['+'] => none
  | ['-'] => none
  | '+' :: rest => (decDigitsAux rest 0).map Int.ofNat
  | '-' :: rest => (decDigitsAux rest 0).map fun n => -Int.ofNat n
  | cs => (decDigitsAux cs 0).map Int.ofNat

/-- Go: the `for _, e := range pmElms { switch e.Name.Local { ... } }`
loop of `getPowerStatus`, threading the status struct being filled in.
Unrecognized tag names fall into the implicit default of the switch
and are skipped. -/
def parsePMElements : List Element → powerStatus →
    Except PowerError powerStatus
  | [], status => .ok status
  | e :: rest, status =>
    match e.Name.Local with
    | "PowerState" =>
      match Atoi e.Content with
      | none => .error .decodeError
      | some val => parsePMElements rest { status with powerState := val }
    | "RequestedPowerState" =>
      match Atoi e.Content with
      | none => .error .decodeError
      | some val =>
        parsePMElements rest { status with RequestedpowerState := val }
    | "AvailableRequestedPowerStates" =>
      match Atoi e.Content with
      | none => .error .decodeError
      | some val =>
        parsePMElements rest { status with
          AvailableRequestedpowerStates :=
            status.AvailableRequestedpowerStates ++ [val] }
    | _ => parsePMElements rest status

/-- Go: the parsing half of `getPowerStatus`, starting from
`&powerStatus{AvailableRequestedpowerStates: []powerState{}}` — all
other fields are Go zero values, i.e. state code 0. -/
def getPowerStatusFromElements (pmElms : List Element) :
    Except PowerError powerStatus :=
  parsePMElements pmElms
    { AvailableRequestedpowerStates := []
      RequestedpowerState := 0
      powerState := 0 }

/-- The available-state codes carried by a list of child elements, in
received order, duplicates preserved. -/
def availableOf (pmElms : List Element) : List powerState :=
  pmElms.filterMap fun e =>
    if e.Name.Local = "AvailableRequestedPowerStates" then Atoi e.Content
    else none

/-- A device that is on and advertises only the sentinel code 0 as an
available requested state. -/
def devSentinelAvail : Device :=
  ⟨fun _ => some (powerStatus.mk [powerStateUnknown] 0 powerStateOn), 0⟩

/-- A device that is on and advertises no available requested states. -/
def devOnEmpty : Device :=
  ⟨fun _ => some (powerStatus.mk [] 0 powerStateOn), 0⟩

/-- A device that is hard-off and advertises no available requested
states. -/
def devOffEmpty : Device :=
  ⟨fun _ => some (powerStatus.mk [] 0 powerStateOffHard), 0⟩

/-- Association children carrying only unrecognized tag names. -/
def elmsUnrecognized : List Element :=
  [⟨⟨"Foo"⟩, "junk"⟩, ⟨⟨"Bar"⟩, ""⟩]

/-! ## Helper lemmas -/

/-- membership characterisation of the Go `containspowerState` scan -/
theorem containspowerState_eq_true_iff (s : List powerState) (e : powerState) :
    containspowerState s e = true ↔ e ∈ s := by
  induction s with
  | nil => simp [containspowerState]
  | cons a rest ih =>
    by_cases h : a = e
    · simp [containspowerState, h]
    · have hne : (a == e) = false := by simp [h]
      simp only [containspowerState, hne, Bool.false_eq_true, if_false, ih,
        List.mem_cons]
      constructor
      · exact Or.inr
      · rintro (he | hm)
        · exact absurd he.symm h
        · exact hm

theorem selectNextState_of_no_overlap (requested available : List powerState)
    (h : ∀ a ∈ requested, containspowerState available a = false) :
    selectNextState requested available = powerStateUnknown := by
  induction requested with
  | nil => rfl
  | cons a rest ih =>
    have ha : containspowerState available a = false := h a (by simp)
    simp only [selectNextState, ha, Bool.false_eq_true, if_false]
    exact ih fun x hx => h x (by simp [hx])

theorem selectNextState_mem_or_unknown (requested available : List powerState) :
    selectNextState requested available ∈ requested ∨
      selectNextState requested available = powerStateUnknown := by
  induction requested with
  | nil => right; rfl
  | cons a rest ih =>
    by_cases h : containspowerState available a = true
    · left; simp [selectNextState, h]
    · have h0 : containspowerState available a = false :=
        Bool.not_eq_true _ |>.mp h
      rcases ih with hm | hu
      · left; simp [selectNextState, h0, hm]
      · right; simp [selectNextState, h0, hu]

theorem selectNextState_nonneg (requested available : List powerState)
    (hpos : ∀ a ∈ requested, 0 ≤ a) :
    0 ≤ selectNextState requested available := by
  rcases selectNextState_mem_or_unknown requested available with hm | hu
  · exact hpos _ hm
  · rw [hu]; norm_num [powerStateUnknown]

theorem isOn_true_of (status : powerStatus)
    (h : status.powerState = powerStateOn) :
    isPoweredOnGivenStatus status = true := by
  unfold isPoweredOnGivenStatus
  rw [h]
  decide

theorem isOn_false_of (status : powerStatus)
    (h : status.powerState ≠ powerStateOn) :
    isPoweredOnGivenStatus status = false := by
  unfold isPoweredOnGivenStatus
  split
  · next heq => exact absurd heq h
  · rfl

theorem requestpowerState_fst_cases (d : Device) (t : Trace)
    (p : powerState) :
    (requestpowerState d t p).1 = .ok d.ack ∨
    (requestpowerState d t p).1 = .error .transport ∨
    ∃ cur av, (requestpowerState d t p).1 =
      .error (.noRequestTransition p cur av) := by
  cases h : d.statusAt t.reads with
  | none =>
    right; left
    simp [requestpowerState, getPowerStatus, h]
  | some status =>
    by_cases hc : containspowerState status.AvailableRequestedpowerStates p
      = true
    · left
      simp [requestpowerState, getPowerStatus, h, hc]
    · right; right
      exact ⟨status.powerState, status.AvailableRequestedpowerStates, by
        simp [requestpowerState, getPowerStatus, h,
          Bool.not_eq_true _ |>.mp hc]⟩

theorem dropAck_requestpowerState_ne_cycle (d : Device) (t : Trace)
    (p c : powerState) (a : List powerState) :
    (dropAck (requestpowerState d t p)).1 ≠
      .error (.noCycleTransition c a) := by
  rcases requestpowerState_fst_cases d t p with h | h | ⟨cur, av, h⟩ <;>
    simp [dropAck, h, Except.map]

theorem powerOn_fst_ne_cycle (d : Device) (t : Trace)
    (c : powerState) (a : List powerState) :
    (powerOn d t).1 ≠ .error (.noCycleTransition c a) := by
  cases h : d.statusAt t.reads with
  | none => simp [powerOn, isPoweredOn, getPowerStatus, h]
  | some status =>
    cases hb : isPoweredOnGivenStatus status with
    | true => simp [powerOn, isPoweredOn, getPowerStatus, h, hb]
    | false =>
      simp only [powerOn, isPoweredOn, getPowerStatus, h, hb]
      exact dropAck_requestpowerState_ne_cycle d (stepRead t) powerStateOn c a

theorem parsePMElements_skips (pmElms : List Element)
    (status : powerStatus)
    (h : ∀ e ∈ pmElms, e.Name.Local ≠ "PowerState" ∧
      e.Name.Local ≠ "RequestedPowerState" ∧
      e.Name.Local ≠ "AvailableRequestedPowerStates") :
    parsePMElements pmElms status = .ok status := by
  induction pmElms with
  | nil => rfl
  | cons e rest ih =>
    obtain ⟨h1, h2, h3⟩ := h e (by simp)
    unfold parsePMElements
    split
    · next heq => exact absurd heq h1
    · next heq => exact absurd heq h2
    · next heq => exact absurd heq h3
    · exact ih fun x hx => h x (by simp [hx])

theorem parsePMElements_available (pmElms : List Element)
    (st : powerStatus) :
    ∀ status : powerStatus, parsePMElements pmElms status = .ok st →
      st.AvailableRequestedpowerStates =
        status.AvailableRequestedpowerStates ++ availableOf pmElms := by
  induction pmElms with
  | nil =>
    intro status h
    cases h
    simp [availableOf]
  | cons e rest ih =>
    intro status h
    unfold parsePMElements at h
    split at h
    · next heq =>
      cases hA : Atoi e.Content with
      | none => rw [hA] at h; cases h
      | some val =>
        rw [hA] at h
        have := ih _ h
        simpa [availableOf, List.filterMap_cons, heq] using this
    · next heq =>
      cases hA : Atoi e.Content with
      | none => rw [hA] at h; cases h
      | some val =>
        rw [hA] at h
        have := ih _ h
        simpa [availableOf, List.filterMap_cons, heq] using this
    · next heq =>
      cases hA : Atoi e.Content with
      | none => rw [hA] at h; cases h
      | some val =>
        rw [hA] at h
        have := ih _ h
        simp [availableOf, List.filterMap_cons, heq, hA] at this ⊢
        simpa [List.append_assoc] using this
    · next hn1 hn2 hn3 =>
      have := ih _ h
      have hne : e.Name.Local ≠ "AvailableRequestedPowerStates" := hn3
      simpa [availableOf, List.filterMap_cons, hne] using this

/-! ## Claims -/

/-- C1: evaluation of `powerCycle` at the failing input: a device that
is on and advertises exactly `[0]` as its available states, so no
element of the cycle preference table is available. The claim expects
a no-transition failure with no transition request; the code instead
passes the sentinel 0 through the `request >= 0` guard, sends a
RequestPowerStateChange invocation with target 0, and returns
success. -/
theorem powerCycle_sentinel_sends_invocation :
    (∀ a ∈ getPowerCycleStates,
      containspowerState [powerStateUnknown] a = false) ∧
    powerCycle devSentinelAvail Trace.init =
      (.ok (), { reads := 2, invocations := [powerStateUnknown] }) := by
  constructor
  · decide
  · rfl

/-- C2: the local no-transition error in `powerCycle` is unreachable:
`selectNextState` over the static cycle table is always ≥ 0 (the
sentinel `powerStateUnknown` is 0), so the `request >= 0` branch is
always taken, and when no cycle-preference state is available
`powerCycle` passes the sentinel 0 to `requestpowerState` instead of
returning its local error. -/
theorem powerCycle_noCycleTransition_unreachable :
    (∀ available : List powerState,
      0 ≤ selectNextState getPowerCycleStates available) ∧
    (∀ (d : Device) (t : Trace) (status : powerStatus),
      d.statusAt t.reads = some status →
      status.powerState = powerStateOn →
      selectNextState getPowerCycleStates
        status.AvailableRequestedpowerStates = powerStateUnknown →
      powerCycle d t =
        dropAck (requestpowerState d (stepRead t) powerStateUnknown)) ∧
    (∀ (d : Device) (t : Trace) (c : powerState) (a : List powerState),
      (powerCycle d t).1 ≠ .error (.noCycleTransition c a)) := by
  refine ⟨?_, ?_, ?_⟩
  · intro available
    exact selectNextState_nonneg _ _ (by decide)
  · intro d t status hread hOn hsel
    have hb : isPoweredOnGivenStatus status = true := isOn_true_of status hOn
    simp [powerCycle, getPowerStatus, hread, hb, hsel, powerStateUnknown]
  · intro d t c a
    cases hread : d.statusAt t.reads with
    | none => simp [powerCycle, getPowerStatus, hread]
    | some status =>
      cases hb : isPoweredOnGivenStatus status with
      | false =>
        simp only [powerCycle, getPowerStatus, hread, hb, Bool.not_false,
          if_true]
        exact powerOn_fst_ne_cycle d (stepRead t) c a
      | true =>
        have hge : (0:Int) ≤ selectNextState getPowerCycleStates
            status.AvailableRequestedpowerStates :=
          selectNextState_nonneg _ _ (by decide)
        simp only [powerCycle, getPowerStatus, hread, hb, Bool.not_true,
          Bool.false_eq_true, if_false]
        split
        · apply dropAck_requestpowerState_ne_cycle
        · next hlt => exact absurd hge hlt

/-- C2 witness: a concrete device that is on with an empty available
list: `powerCycle` reduces to `requestpowerState` with target 0. -/
theorem powerCycle_noCycleTransition_unreachable_witness :
    powerCycle devOnEmpty Trace.init =
      dropAck (requestpowerState devOnEmpty (stepRead Trace.init)
        powerStateUnknown) :=
  powerCycle_noCycleTransition_unreachable.2.1 devOnEmpty Trace.init
    (powerStatus.mk [] 0 powerStateOn) rfl rfl (by decide)

/-- C3 counterexample: with preference list `[0]` and available list
`[0]`, `selectNextState` returns the sentinel 0 although the two lists
intersect, refuting the unrestricted "sentinel iff empty
intersection". -/
theorem selectNextState_sentinel_collision :
    selectNextState [powerStateUnknown] [powerStateUnknown] =
      powerStateUnknown ∧
    containspowerState [powerStateUnknown] powerStateUnknown = true := by
  decide

/-- C3 (amended): for every preference list that does not contain the
sentinel code 0 — true of both static preference tables —
`selectNextState` returns the sentinel 0 iff no element of the
preference list is contained in the available list. -/
theorem selectNextState_eq_unknown_iff_no_overlap
    (requested available : List powerState)
    (h : powerStateUnknown ∉ requested) :
    selectNextState requested available = powerStateUnknown ↔
      ∀ a ∈ requested, containspowerState available a = false := by
  induction requested with
  | nil => simp [selectNextState]
  | cons a rest ih =>
    have ha : a ≠ powerStateUnknown := fun he =>
      h (he ▸ List.mem_cons_self a rest)
    have hrest : powerStateUnknown ∉ rest := fun hm =>
      h (List.mem_cons_of_mem a hm)
    by_cases hc : containspowerState available a = true
    · simp only [selectNextState, hc, if_true]
      constructor
      · intro heq; exact absurd heq ha
      · intro hall
        have hfalse := hall a (List.mem_cons_self a rest)
        rw [hc] at hfalse
        exact absurd hfalse (by decide)
    · have hc0 : containspowerState available a = false :=
        Bool.not_eq_true _ |>.mp hc
      simp only [selectNextState, hc0, Bool.false_eq_true, if_false]
      rw [ih hrest]
      constructor
      · intro hall x hx
        rcases List.mem_cons.mp hx with rfl | hm
        · exact hc0
        · exact hall x hm
      · intro hall x hx
        exact hall x (List.mem_cons_of_mem a hx)

/-- C3 witness: the off preference table (which avoids the sentinel)
against an empty available list. -/
theorem selectNextState_eq_unknown_iff_no_overlap_witness :
    selectNextState getPowerOffStates [] = powerStateUnknown ↔
      ∀ a ∈ getPowerOffStates, containspowerState [] a = false :=
  selectNextState_eq_unknown_iff_no_overlap getPowerOffStates [] (by decide)

/-- C4: `selectNextState` returns the first element of the preference
list (in scan order) that is a member of the available list, membership
decided by integer equality; in particular the off table against
`[OffHard, SleepLight]` yields `OffHard`. -/
theorem selectNextState_first_preferred :
    (∀ requested available : List powerState,
      selectNextState requested available =
        (List.find? (fun a => containspowerState available a)
          requested).getD powerStateUnknown) ∧
    selectNextState getPowerOffStates
      [powerStateOffHard, powerStateSleepLight] = powerStateOffHard := by
  constructor
  · intro requested available
    induction requested with
    | nil => rfl
    | cons a rest ih =>
      by_cases h : containspowerState available a = true
      · rw [List.find?_cons_of_pos _ h]
        simp [selectNextState, h]
      · have h0 : containspowerState available a = false :=
          Bool.not_eq_true _ |>.mp h
        rw [List.find?_cons_of_neg _ h]
        simp [selectNextState, h0, ih]
  · decide

/-- C5: `requestpowerState` validates the target against the freshly
read available states: when absent it fails with the no-transition
error naming the target, the current state, and the available-states
list, and sends no invocation — regardless of any earlier read. -/
theorem requestpowerState_rejects_stale_target
    (d : Device) (t : Trace) (target : powerState) (status : powerStatus)
    (hread : d.statusAt t.reads = some status)
    (hmem : containspowerState status.AvailableRequestedpowerStates target
      = false) :
    requestpowerState d t target =
      (.error (.noRequestTransition target status.powerState
        status.AvailableRequestedpowerStates), stepRead t) ∧
    (requestpowerState d t target).2.invocations = t.invocations := by
  have h1 : requestpowerState d t target =
      (.error (.noRequestTransition target status.powerState
        status.AvailableRequestedpowerStates), stepRead t) := by
    simp [requestpowerState, getPowerStatus, hread, hmem]
  exact ⟨h1, by rw [h1]; rfl⟩

/-- C5 witness: requesting On against a fresh read whose available
list is empty. -/
theorem requestpowerState_rejects_stale_target_witness :
    requestpowerState devOnEmpty Trace.init powerStateOn =
      (.error (.noRequestTransition powerStateOn powerStateOn []),
        stepRead Trace.init) ∧
    (requestpowerState devOnEmpty Trace.init powerStateOn).2.invocations =
      Trace.init.invocations :=
  requestpowerState_rejects_stale_target devOnEmpty Trace.init powerStateOn
    (powerStatus.mk [] 0 powerStateOn) rfl rfl

/-- C6: `powerOff` on an on device none of whose available states is
in the off preference table fails with the no-off-transition error
naming the current state and the full available-states list, and sends
no invocation. -/
theorem powerOff_noTransitionAvailable
    (d : Device) (t : Trace) (status : powerStatus)
    (hread : d.statusAt t.reads = some status)
    (hOn : status.powerState = powerStateOn)
    (hnone : ∀ a ∈ getPowerOffStates,
      containspowerState status.AvailableRequestedpowerStates a = false) :
    powerOff d t =
      (.error (.noOffTransition status.powerState
        status.AvailableRequestedpowerStates), stepRead t) ∧
    (powerOff d t).2.invocations = t.invocations := by
  have hsel := selectNextState_of_no_overlap getPowerOffStates
    status.AvailableRequestedpowerStates hnone
  have hb := isOn_true_of status hOn
  have h1 : powerOff d t =
      (.error (.noOffTransition status.powerState
        status.AvailableRequestedpowerStates), stepRead t) := by
    simp [powerOff, getPowerStatus, hread, hb, hsel]
  exact ⟨h1, by rw [h1]; rfl⟩

/-- C6 witness: current state On, empty available list. -/
theorem powerOff_noTransitionAvailable_witness :
    powerOff devOnEmpty Trace.init =
      (.error (.noOffTransition powerStateOn []), stepRead Trace.init) ∧
    (powerOff devOnEmpty Trace.init).2.invocations =
      Trace.init.invocations :=
  powerOff_noTransitionAvailable devOnEmpty Trace.init
    (powerStatus.mk [] 0 powerStateOn) rfl rfl (by decide)

/-- C7: `isPoweredOnGivenStatus` returns true iff the current state
equals On (code 2); every other code, including unmapped vendor codes,
classifies as not on. -/
theorem isPoweredOnGivenStatus_iff_on (status : powerStatus) :
    isPoweredOnGivenStatus status = true ↔
      status.powerState = powerStateOn := by
  constructor
  · intro h
    by_contra hne
    rw [isOn_false_of status hne] at h
    exact absurd h (by decide)
  · exact isOn_true_of status

/-- C8: `powerOn` is idempotent on an already-on device — success with
zero transition requests — and otherwise requests the canonical On
state directly via the transition primitive, consulting no preference
table. -/
theorem powerOn_idempotent_on
    (d : Device) (t : Trace) (status : powerStatus)
    (hread : d.statusAt t.reads = some status) :
    (status.powerState = powerStateOn →
      powerOn d t = (.ok (), stepRead t)) ∧
    (status.powerState ≠ powerStateOn →
      powerOn d t =
        dropAck (requestpowerState d (stepRead t) powerStateOn)) := by
  constructor
  · intro h
    simp [powerOn, isPoweredOn, getPowerStatus, hread, isOn_true_of status h]
  · intro h
    simp [powerOn, isPoweredOn, getPowerStatus, hread, isOn_false_of status h]

/-- C8 witness: an already-on device — success, no invocation. -/
theorem powerOn_idempotent_on_witness :
    powerOn devOnEmpty Trace.init = (.ok (), stepRead Trace.init) :=
  (powerOn_idempotent_on devOnEmpty Trace.init
    (powerStatus.mk [] 0 powerStateOn) rfl).1 rfl

/-- C9: on a device that is not on, `powerOff` succeeds with no request
sent, and `powerCycle` delegates entirely to `powerOn`. -/
theorem powerOff_noop_powerCycle_delegates
    (d : Device) (t : Trace) (status : powerStatus)
    (hread : d.statusAt t.reads = some status)
    (hOff : status.powerState ≠ powerStateOn) :
    powerOff d t = (.ok (), stepRead t) ∧
    powerCycle d t = powerOn d (stepRead t) := by
  have hb := isOn_false_of status hOff
  constructor
  · simp [powerOff, getPowerStatus, hread, hb]
  · simp [powerCycle, getPowerStatus, hread, hb]

/-- C9 witness: a hard-off device. -/
theorem powerOff_noop_powerCycle_delegates_witness :
    powerOff devOffEmpty Trace.init = (.ok (), stepRead Trace.init) ∧
    powerCycle devOffEmpty Trace.init =
      powerOn devOffEmpty (stepRead Trace.init) :=
  powerOff_noop_powerCycle_delegates devOffEmpty Trace.init
    (powerStatus.mk [] 0 powerStateOffHard) rfl (by decide)

/-- C10: the status parser succeeds with all-zero defaults and an
empty available list when no recognized tag name occurs among the
children (unrecognized names are silently skipped), and on any
successful parse the available-states list is exactly the recognized
available entries in received order, duplicates preserved. -/
theorem getPowerStatusFromElements_defaults_and_order
    (pmElms : List Element) :
    ((∀ e ∈ pmElms, e.Name.Local ≠ "PowerState" ∧
        e.Name.Local ≠ "RequestedPowerState" ∧
        e.Name.Local ≠ "AvailableRequestedPowerStates") →
      getPowerStatusFromElements pmElms =
        .ok { AvailableRequestedpowerStates := []
              RequestedpowerState := 0
              powerState := 0 }) ∧
    (∀ st, getPowerStatusFromElements pmElms = .ok st →
      st.AvailableRequestedpowerStates = availableOf pmElms) := by
  constructor
  · intro h
    exact parsePMElements_skips pmElms _ h
  · intro st h
    have hav := parsePMElements_available pmElms st _ h
    simpa using hav

/-- C10 witness: two children with unrecognized names parse to the
all-default status. -/
theorem getPowerStatusFromElements_defaults_and_order_witness :
    getPowerStatusFromElements elmsUnrecognized =
      .ok { AvailableRequestedpowerStates := []
            RequestedpowerState := 0
            powerState := 0 } ∧
    ({ AvailableRequestedpowerStates := []
       RequestedpowerState := 0
       powerState := 0 : powerStatus }).AvailableRequestedpowerStates =
      availableOf elmsUnrecognized :=
  ⟨(getPowerStatusFromElements_defaults_and_order elmsUnrecognized).1
      (by decide),
   (getPowerStatusFromElements_defaults_and_order elmsUnrecognized).2 _
      ((getPowerStatusFromElements_defaults_and_order elmsUnrecognized).1
        (by decide))⟩

end Amt
